import Mathlib

/-!
Verification of the log-analysis pipeline in `tools/analyze_usage_log.py`.

The Python source is shallowly embedded as executable Lean definitions:

* strings are handled as `List Char`;
* Python `float` arithmetic is modelled exactly over `ℚ` (the values involved
  are decimal literals and the spec's expected results are exact rationals);
* `datetime` values are modelled as `ℤ` seconds on the proleptic Gregorian
  calendar (the civil-days algorithm), which is faithful for timestamp
  comparison, subtraction in seconds, and flooring to the minute;
* the five `re.search` calls are modelled by a small backtracking matcher
  specialised to the token shapes those patterns use (literal runs, lazy
  `(.*?)` groups that cannot cross a newline, greedy `(\d+)` and
  `(\d+\.\d+)` groups, and the unanchored-`$` end test);
* a Python exception escaping the pipeline is modelled as `Except.error`;
  the constructors of `PyErr` record which kind of exception is raised.
-/

set_option maxRecDepth 4000

namespace UsageLog

/-- Python whitespace characters recognised by `str.strip` / `float`. -/
def isPySpace (c : Char) : Bool :=
  c.toNat = 32 || c.toNat = 9 || c.toNat = 10 || c.toNat = 13 ||
  c.toNat = 11 || c.toNat = 12

/-- Numeric value of a run of decimal digits (used for `int()` on `\d+` matches). -/
def natOfDigits (cs : List Char) : ℕ :=
  cs.foldl (fun a c => 10 * a + (c.toNat - 48)) 0

/-- Addition on ℚ, written with `Rat.divInt` so that it evaluates inside the
kernel (the library's `Rat.add` is sealed); equal to `+` by `qAdd_eq` below. -/
def qAdd (a b : ℚ) : ℚ :=
  Rat.divInt (a.num * (b.den : ℤ) + b.num * (a.den : ℤ)) ((a.den : ℤ) * (b.den : ℤ))

/-- Subtraction on ℚ via `Rat.divInt`; equal to `-` by `qSub_eq` below. -/
def qSub (a b : ℚ) : ℚ :=
  Rat.divInt (a.num * (b.den : ℤ) - b.num * (a.den : ℤ)) ((a.den : ℤ) * (b.den : ℤ))

/-- Multiplication on ℚ via `Rat.divInt`; equal to `*` by `qMul_eq` below. -/
def qMul (a b : ℚ) : ℚ :=
  Rat.divInt (a.num * b.num) ((a.den : ℤ) * (b.den : ℤ))

/-- Division on ℚ via `Rat.divInt` (so `qDiv a 0 = 0`, as `/` on ℚ);
equal to `/` by `qDiv_eq` below. -/
def qDiv (a b : ℚ) : ℚ :=
  Rat.divInt (a.num * (b.den : ℤ)) ((a.den : ℤ) * b.num)

/-- `10 ^ e` as a kernel-evaluating rational. -/
def pow10 (e : ℕ) : ℚ := (((10 : ℤ) ^ e : ℤ) : ℚ)

/-- Sum of a list of rationals via `qAdd`. -/
def qSum : List ℚ → ℚ
  | [] => 0
  | x :: t => qAdd x (qSum t)

/-- First `some` produced by `f` along the list, in order; models the order in
which a backtracking regex engine tries alternatives. -/
def firstSome {α β : Type} : List α → (α → Option β) → Option β
  | [], _ => none
  | a :: as, f =>
    match f a with
    | some b => some b
    | none => firstSome as f

/-- Candidate lengths for a greedy group: longest first, down to 1. -/
def countdown : ℕ → List ℕ
  | 0 => []
  | n + 1 => (n + 1) :: countdown n

/-- Tokens of the concrete regular expressions used by `parse_log_file`.
`lazyGroup` is `(.*?)` (no newline), `digitGroup` is `(\d+)`,
`floatGroup` is `(\d+\.\d+)`, `endAnchor` is `$` without `re.MULTILINE`. -/
inductive RTok where
  | lit (s : List Char)
  | lazyGroup
  | digitGroup
  | floatGroup
  | endAnchor
deriving DecidableEq, Repr

/-- Backtracking match of a token list at the current position, returning the
captured groups in order.  Lazy groups try the shortest extension first and
never cross a newline; greedy digit groups try the longest run first.  In
`floatGroup` the leading `\d+` is forced to the maximal digit run: any shorter
choice leaves a digit where the literal `.` must match. -/
def matchToks : List RTok → List Char → Option (List (List Char))
  | [], _ => some []
  | .lit l :: rest, cs =>
    if l.isPrefixOf cs then matchToks rest (cs.drop l.length) else none
  | .endAnchor :: rest, cs =>
    if cs = [] ∨ cs = ['\n'] then matchToks rest cs else none
  | .lazyGroup :: rest, cs =>
    let m := (cs.takeWhile (fun c => c ≠ '\n')).length
    firstSome (List.range (m + 1)) (fun k =>
      match matchToks rest (cs.drop k) with
      | some gs => some (cs.take k :: gs)
      | none => none)
  | .digitGroup :: rest, cs =>
    let m := (cs.takeWhile Char.isDigit).length
    firstSome (countdown m) (fun k =>
      match matchToks rest (cs.drop k) with
      | some gs => some (cs.take k :: gs)
      | none => none)
  | .floatGroup :: rest, cs =>
    let m1 := (cs.takeWhile Char.isDigit).length
    if m1 = 0 then none
    else
      match cs.drop m1 with
      | '.' :: cs3 =>
        let m2 := (cs3.takeWhile Char.isDigit).length
        firstSome (countdown m2) (fun k =>
          match matchToks rest (cs3.drop k) with
          | some gs => some ((cs.take m1 ++ '.' :: cs3.take k) :: gs)
          | none => none)
      | _ => none

/-- `re.search`: leftmost starting position wins, then backtracking order. -/
def reSearch (toks : List RTok) : List Char → Option (List (List Char))
  | [] => matchToks toks []
  | c :: t =>
    match matchToks toks (c :: t) with
    | some gs => some gs
    | none => reSearch toks t

/-- Pattern `Current: (.*?), PID=(\d+), Memory=(.*?) MB`. -/
def currentToks : List RTok :=
  [.lit "Current: ".data, .lazyGroup, .lit ", PID=".data, .digitGroup,
   .lit ", Memory=".data, .lazyGroup, .lit " MB".data]

/-- Pattern `Average GC: YGC=(\d+\.\d+)\((\d+\.\d+)ms\), FGC=(\d+\.\d+)\((\d+\.\d+)ms\)`. -/
def gcToks : List RTok :=
  [.lit "Average GC: YGC=".data, .floatGroup, .lit "(".data, .floatGroup,
   .lit "ms), FGC=".data, .floatGroup, .lit "(".data, .floatGroup, .lit "ms)".data]

/-- Pattern `Instant GC: Young GC=(\d+)\((\d+\.\d+)ms\), Full GC=(\d+)\((\d+\.\d+)ms\)`. -/
def instantToks : List RTok :=
  [.lit "Instant GC: Young GC=".data, .digitGroup, .lit "(".data, .floatGroup,
   .lit "ms), Full GC=".data, .digitGroup, .lit "(".data, .floatGroup, .lit "ms)".data]

/-- Pattern `Average: Memory=(.*?) MB, CPU=(.*?)%, Threads=(.*?)$`. -/
def avgToks : List RTok :=
  [.lit "Average: Memory=".data, .lazyGroup, .lit " MB, CPU=".data, .lazyGroup,
   .lit "%, Threads=".data, .lazyGroup, .endAnchor]

/-- Pattern `Raw GC: Young GC=(\d+), Young GC Time=(\d+\.\d+), Full GC=(\d+), Full GC Time=(\d+\.\d+)`. -/
def rawGcToks : List RTok :=
  [.lit "Raw GC: Young GC=".data, .digitGroup, .lit ", Young GC Time=".data, .floatGroup,
   .lit ", Full GC=".data, .digitGroup, .lit ", Full GC Time=".data, .floatGroup]

/-- Exponent part of a Python float literal: `[eE][+-]?digits`, which must
consume the rest of the string. -/
def pyFloatExp (v : ℚ) : List Char → Option ℚ
  | [] => some v
  | e :: r =>
    if e = 'e' ∨ e = 'E' then
      let (neg, r2) : Bool × List Char :=
        match r with
        | '+' :: t => (false, t)
        | '-' :: t => (true, t)
        | t => (false, t)
      let ds := r2.takeWhile Char.isDigit
      if ds = [] ∨ r2.drop ds.length ≠ [] then none
      else
        let ex := natOfDigits ds
        some (if neg then qDiv v (pow10 ex) else qMul v (pow10 ex))
    else none

/-- Mantissa of a Python float literal: `digits[.digits] | .digits`,
followed by an optional exponent. -/
def pyFloatBody (cs : List Char) : Option ℚ :=
  let ip := cs.takeWhile Char.isDigit
  let rest := cs.drop ip.length
  match rest with
  | '.' :: r2 =>
    let fp := r2.takeWhile Char.isDigit
    if ip = [] ∧ fp = [] then none
    else
      let v : ℚ := qAdd (natOfDigits ip : ℚ) (qDiv (natOfDigits fp : ℚ) (pow10 fp.length))
      pyFloatExp v (r2.drop fp.length)
  | _ =>
    if ip = [] then none else pyFloatExp (natOfDigits ip : ℚ) rest

/-- Python `float(str)` on finite decimal/scientific literals, exactly over ℚ.
Surrounding whitespace is stripped as `float` does; `inf`/`nan` and digit
underscores are not modelled (no claim depends on them). `none` models the
`ValueError` that `float` raises. -/
def pyFloat (cs0 : List Char) : Option ℚ :=
  let cs := (((cs0.dropWhile isPySpace).reverse.dropWhile isPySpace).reverse)
  match cs with
  | '+' :: t => pyFloatBody t
  | '-' :: t => (pyFloatBody t).map Neg.neg
  | t => pyFloatBody t

/-- Gregorian leap year, as `calendar`/`datetime` define it. -/
def isLeap (y : ℕ) : Bool :=
  y % 4 = 0 && (y % 100 ≠ 0 || y % 400 = 0)

/-- Days in a month, as `datetime` validates the day field. -/
def daysInMonth (y m : ℕ) : ℕ :=
  if m = 2 then (if isLeap y then 29 else 28)
  else if m = 4 ∨ m = 6 ∨ m = 9 ∨ m = 11 then 30
  else 31

/-- Days since 1970-01-01 of a civil date (Hinnant's civil-days algorithm,
the arithmetic equivalent of `datetime.toordinal`). -/
def daysFromCivil (y m d : ℤ) : ℤ :=
  let y2 := if m ≤ 2 then y - 1 else y
  let era := Int.fdiv y2 400
  let yoe := y2 - era * 400
  let mAdj := if m > 2 then m - 3 else m + 9
  let doy := Int.fdiv (153 * mAdj + 2) 5 + d - 1
  let doe := yoe * 365 + Int.fdiv yoe 4 - Int.fdiv yoe 100 + doy
  era * 146097 + doe - 719468

/-- Seconds since the epoch of a `datetime(y, m, d, hh, mm, ss)`. -/
def toSecs (y m d hh mm ss : ℕ) : ℤ :=
  86400 * daysFromCivil y m d + 3600 * hh + 60 * mm + ss

/-- Candidate parses of a 1-2 digit `strptime` field whose value must lie in
`[lo, hi]`: the two-digit reading first, then the one-digit reading, exactly
the order of the alternations in CPython's `_strptime` regexes. -/
def read2 (lo hi : ℕ) : List Char → List (ℕ × List Char)
  | c1 :: c2 :: t =>
    (if c1.isDigit ∧ c2.isDigit ∧
        lo ≤ natOfDigits [c1, c2] ∧ natOfDigits [c1, c2] ≤ hi then
      [(natOfDigits [c1, c2], t)] else []) ++
    (if c1.isDigit ∧ lo ≤ natOfDigits [c1] ∧ natOfDigits [c1] ≤ hi then
      [(natOfDigits [c1], c2 :: t)] else [])
  | [c1] =>
    if c1.isDigit ∧ lo ≤ natOfDigits [c1] ∧ natOfDigits [c1] ≤ hi then
      [(natOfDigits [c1], [])] else []
  | [] => []

/-- Tail of `strpTimestamp` after the year: `-%m-%d %H:%M:%S`, requiring the
whole string to be consumed, then the `datetime` constructor's day-of-month
validation.  `none` models the `ValueError` raised by `strptime`/`datetime`. -/
def strpTail (y : ℕ) : List Char → Option ℤ
  | '-' :: r1 =>
    firstSome (read2 1 12 r1) (fun pm =>
      match pm.2 with
      | '-' :: r2 =>
        firstSome (read2 1 31 r2) (fun pd =>
          match pd.2 with
          | ' ' :: r3 =>
            firstSome (read2 0 23 r3) (fun ph =>
              match ph.2 with
              | ':' :: r4 =>
                firstSome (read2 0 59 r4) (fun pmin =>
                  match pmin.2 with
                  | ':' :: r5 =>
                    firstSome (read2 0 59 r5) (fun ps =>
                      if ps.2 = [] ∧ 1 ≤ y ∧ pd.1 ≤ daysInMonth y pm.1 then
                        some (toSecs y pm.1 pd.1 ph.1 pmin.1 ps.1)
                      else none)
                  | _ => none)
              | _ => none)
          | _ => none)
      | _ => none)
  | _ => none

/-- `datetime.strptime(s, "%Y-%m-%d %H:%M:%S")` as seconds since the epoch.
`%Y` is exactly four digits in CPython's `_strptime` regex. -/
def strpTimestamp : List Char → Option ℤ
  | y1 :: y2 :: y3 :: y4 :: rest =>
    if y1.isDigit ∧ y2.isDigit ∧ y3.isDigit ∧ y4.isDigit then
      strpTail (natOfDigits [y1, y2, y3, y4]) rest
    else none
  | _ => none

/-- Equality of `Except` values is decidable when it is on both sides. -/
instance {ε α : Type} [DecidableEq ε] [DecidableEq α] : DecidableEq (Except ε α)
  | .error e, .error f =>
    if h : e = f then .isTrue (by rw [h])
    else .isFalse (fun hh => by cases hh; exact h rfl)
  | .error _, .ok _ => .isFalse (fun hh => by cases hh)
  | .ok _, .error _ => .isFalse (fun hh => by cases hh)
  | .ok a, .ok b =>
    if h : a = b then .isTrue (by rw [h])
    else .isFalse (fun hh => by cases hh; exact h rfl)

/-- Kinds of Python exception this pipeline can raise.
`valueError` is raised by `strptime`/`float` on malformed text;
`keyError` by column access on a DataFrame lacking that column
(a DataFrame built from an empty record list has no columns at all);
`indexError` by positional row access (`iloc`/`index[i]`) out of bounds. -/
inductive PyErr where
  | valueError
  | keyError (col : String)
  | indexError
deriving DecidableEq, Repr

/-- One parsed observation: the dict appended per block in `parse_log_file`,
with the same field names.  `timestamp` is in seconds (see module header);
all other fields are numeric (ℚ for Python float/int). -/
structure Row where
  timestamp : ℤ
  memory : ℚ
  avg_memory : ℚ
  avg_cpu : ℚ
  avg_threads : ℚ
  ygc_freq : ℚ
  ygc_time : ℚ
  fgc_freq : ℚ
  fgc_time : ℚ
  raw_ygc : ℚ
  raw_ygc_time : ℚ
  raw_fgc : ℚ
  raw_fgc_time : ℚ
  instant_ygc : ℚ
  instant_ygc_time : ℚ
  instant_fgc : ℚ
  instant_fgc_time : ℚ
deriving DecidableEq, Repr

/-- An all-zero row (also the default used where an index is known in range). -/
def zeroRow : Row :=
  ⟨0, 0, 0, 0, 0, 0, 0, 0, 0, 0, 0, 0, 0, 0, 0, 0, 0⟩

/-- `float()` on a group matched by `\d+\.\d+` or `\d+`; on such matches the
conversion never raises, so the `getD 0` default is unreachable. -/
def qOfGroup (gs : List (List Char)) (i : ℕ) : ℚ :=
  (pyFloat (gs.getD i [])).getD 0

/-- `int()` on a group matched by `\d+` (always succeeds on such matches). -/
def iOfGroup (gs : List (List Char)) (i : ℕ) : ℚ :=
  (natOfDigits (gs.getD i []) : ℚ)

/-- The body of `parse_log_file`'s per-block loop: a block with no `Current`
match appends nothing; otherwise `strptime`/`float` conversions run (and can
raise `ValueError`), every non-matching secondary pattern leaves its fields at
the numeric-zero defaults, and a record is appended. -/
def parseEntry (entry : List Char) : Except PyErr (Option Row) :=
  match reSearch currentToks entry with
  | none => .ok none
  | some gs =>
    match strpTimestamp (gs.getD 0 []) with
    | none => .error .valueError
    | some ts =>
      match pyFloat (gs.getD 2 []) with
      | none => .error .valueError
      | some memory =>
        let gcF := reSearch gcToks entry
        let ygc_freq := match gcF with | some g => qOfGroup g 0 | none => 0
        let ygc_time := match gcF with | some g => qOfGroup g 1 | none => 0
        let fgc_freq := match gcF with | some g => qOfGroup g 2 | none => 0
        let fgc_time := match gcF with | some g => qOfGroup g 3 | none => 0
        let inF := reSearch instantToks entry
        let instant_ygc := match inF with | some g => iOfGroup g 0 | none => 0
        let instant_ygc_time := match inF with | some g => qOfGroup g 1 | none => 0
        let instant_fgc := match inF with | some g => iOfGroup g 2 | none => 0
        let instant_fgc_time := match inF with | some g => qOfGroup g 3 | none => 0
        let rawF := reSearch rawGcToks entry
        let raw_ygc := match rawF with | some g => iOfGroup g 0 | none => 0
        let raw_ygc_time := match rawF with | some g => qOfGroup g 1 | none => 0
        let raw_fgc := match rawF with | some g => iOfGroup g 2 | none => 0
        let raw_fgc_time := match rawF with | some g => qOfGroup g 3 | none => 0
        match reSearch avgToks entry with
        | none =>
          .ok (some { timestamp := ts, memory, avg_memory := 0, avg_cpu := 0,
                      avg_threads := 0, ygc_freq, ygc_time, fgc_freq, fgc_time,
                      raw_ygc, raw_ygc_time, raw_fgc, raw_fgc_time,
                      instant_ygc, instant_ygc_time, instant_fgc, instant_fgc_time })
        | some g =>
          match pyFloat (g.getD 0 []), pyFloat (g.getD 1 []), pyFloat (g.getD 2 []) with
          | some avg_memory, some avg_cpu, some avg_threads =>
            .ok (some { timestamp := ts, memory, avg_memory, avg_cpu,
                        avg_threads, ygc_freq, ygc_time, fgc_freq, fgc_time,
                        raw_ygc, raw_ygc_time, raw_fgc, raw_fgc_time,
                        instant_ygc, instant_ygc_time, instant_fgc, instant_fgc_time })
          | _, _, _ => .error .valueError

/-- The literal 80-dash separator line. -/
def sepChars : List Char := List.replicate 80 '-'

/-- `str.split` on the 80-dash separator: scan left to right; on a separator
occurrence emit the accumulated piece and skip the remaining 79 separator
characters (the counter argument), so occurrences never overlap. -/
def splitGo : ℕ → List Char → List Char → List (List Char)
  | _, acc, [] => [acc.reverse]
  | Nat.succ k, acc, _ :: t => splitGo k acc t
  | 0, acc, c :: t =>
    if sepChars.isPrefixOf (c :: t) then acc.reverse :: splitGo 79 [] t
    else splitGo 0 (c :: acc) t

/-- `content.split('-' * 80)`. -/
def splitSepList (content : List Char) : List (List Char) :=
  splitGo 0 [] content

/-- The per-entry loop of `parse_log_file`: whitespace-only entries are
skipped, conversions abort the whole parse on the first exception. -/
def parseEntries : List (List Char) → Except PyErr (List Row)
  | [] => .ok []
  | e :: t =>
    if e.all isPySpace then parseEntries t
    else
      match parseEntry e with
      | .error err => .error err
      | .ok none => parseEntries t
      | .ok (some r) => (parseEntries t).map (r :: ·)

/-- `parse_log_file`: split the file content on the separator and run the
block loop.  The result list is in file order. -/
def parse_log_file (content : List Char) : Except PyErr (List Row) :=
  parseEntries (splitSepList content)

/-- `foldl` of `min` over a column, seeded with the first value: pandas
`Series.min` on a non-empty column. -/
def foldMin {α : Type} [LinearOrder α] (g : Row → α) (a : α) (l : List Row) : α :=
  l.foldl (fun b x => min b (g x)) a

/-- `foldl` of `max` over a column (pandas `Series.max`). -/
def foldMax {α : Type} [LinearOrder α] (g : Row → α) (a : α) (l : List Row) : α :=
  l.foldl (fun b x => max b (g x)) a

/-- `df['timestamp'].min()` on a non-empty frame (0 is never used). -/
def tsMinL : List Row → ℤ
  | [] => 0
  | r :: rs => foldMin Row.timestamp r.timestamp rs

/-- `df['timestamp'].max()` on a non-empty frame. -/
def tsMaxL : List Row → ℤ
  | [] => 0
  | r :: rs => foldMax Row.timestamp r.timestamp rs

/-- `df['memory'].min()` on a non-empty frame. -/
def memMinL : List Row → ℚ
  | [] => 0
  | r :: rs => foldMin Row.memory r.memory rs

/-- `df['memory'].max()` on a non-empty frame. -/
def memMaxL : List Row → ℚ
  | [] => 0
  | r :: rs => foldMax Row.memory r.memory rs

/-- The values `analyze_data` computes and returns. -/
structure AnalyzeResult where
  duration : ℤ
  hours : ℚ
  memory_growth : ℚ
  hourly_growth : ℚ
  last_row : Row
deriving DecidableEq, Repr

/-- `analyze_data`.  On the empty parse result the DataFrame has no columns,
so the very first column access `df['timestamp']` raises `KeyError`;
otherwise the summary statistics are computed and `df.iloc[-1]` is the last
row in arrival order. -/
def analyze_data : List Row → Except PyErr AnalyzeResult
  | [] => .error (.keyError "timestamp")
  | r :: rs =>
    let duration := tsMaxL (r :: rs) - tsMinL (r :: rs)
    let hours : ℚ := qDiv (duration : ℚ) 3600
    let memory_growth := qSub (memMaxL (r :: rs)) (memMinL (r :: rs))
    let hourly_growth := if hours > 0 then qDiv memory_growth hours else 0
    .ok { duration, hours, memory_growth, hourly_growth,
          last_row := (r :: rs).getLast (List.cons_ne_nil r rs) }

/-- Floor of a timestamp to its wall-clock minute bucket (`resample('1min')`
labels bins by left edge; on seconds this is floor division by 60). -/
def minuteOf (t : ℤ) : ℤ := Int.fdiv t 60

/-- Mean of a column over a bucket. -/
def colMean (g : Row → ℚ) (b : List Row) : ℚ :=
  qDiv (qSum (b.map g)) (b.length : ℚ)

/-- Fieldwise mean of a bucket, stamped with the bucket's left edge.
On an empty bucket every field is `0/0 = 0` in ℚ; this value stands for the
all-`NaN` row pandas produces there, and `ffillCells` below only emits it in
the unreachable case where there is no preceding non-empty bucket. -/
def meanRow (m : ℤ) (b : List Row) : Row :=
  { timestamp := 60 * m
  , memory := colMean Row.memory b
  , avg_memory := colMean Row.avg_memory b
  , avg_cpu := colMean Row.avg_cpu b
  , avg_threads := colMean Row.avg_threads b
  , ygc_freq := colMean Row.ygc_freq b
  , ygc_time := colMean Row.ygc_time b
  , fgc_freq := colMean Row.fgc_freq b
  , fgc_time := colMean Row.fgc_time b
  , raw_ygc := colMean Row.raw_ygc b
  , raw_ygc_time := colMean Row.raw_ygc_time b
  , raw_fgc := colMean Row.raw_fgc b
  , raw_fgc_time := colMean Row.raw_fgc_time b
  , instant_ygc := colMean Row.instant_ygc b
  , instant_ygc_time := colMean Row.instant_ygc_time b
  , instant_fgc := colMean Row.instant_fgc b
  , instant_fgc_time := colMean Row.instant_fgc_time b }

/-- The source rows falling in minute bucket `m`. -/
def bucketRows (m : ℤ) (rows : List Row) : List Row :=
  rows.filter (fun r => minuteOf r.timestamp = m)

/-- `resample('1min').mean()` cell for bucket `m`: `none` is an all-NaN row. -/
def resampleCell (rows : List Row) (m : ℤ) : Option Row :=
  let b := bucketRows m rows
  if b.isEmpty then none else some (meanRow m b)

/-- `fillna(method='ffill')` down the bucket list: an empty bucket takes the
previous emitted row's values, restamped with its own bucket edge. -/
def ffillCells : Option Row → List (ℤ × Option Row) → List Row
  | _, [] => []
  | _, (_, some r) :: t => r :: ffillCells (some r) t
  | some c, (m, none) :: t => { c with timestamp := 60 * m } :: ffillCells (some c) t
  | none, (m, none) :: t => meanRow m [] :: ffillCells none t

/-- `resample_data_by_minute`: one row per minute from the bucket of the
earliest timestamp to the bucket of the latest, bucket means forward-filled. -/
def resample_data_by_minute (rows : List Row) : List Row :=
  match rows with
  | [] => []
  | r :: rs =>
    let m0 := minuteOf (tsMinL (r :: rs))
    let m1 := minuteOf (tsMaxL (r :: rs))
    let ms := (List.range (m1 - m0 + 1).toNat).map (fun i : ℕ => m0 + (i : ℤ))
    ffillCells none (ms.map (fun m => (m, resampleCell (r :: rs) m)))

/-- Insert a row into a timestamp-sorted list, after any equal timestamps. -/
def insertRow (r : Row) : List Row → List Row
  | [] => [r]
  | x :: t => if x.timestamp ≤ r.timestamp then x :: insertRow r t else r :: x :: t

/-- `df.sort_values('timestamp')` (insertion sort; stable on ties). -/
def sortRows : List Row → List Row
  | [] => []
  | r :: t => insertRow r (sortRows t)

/-- The four columns `calculate_realtime_gc` adds. -/
structure RtFields where
  rt_ygc_freq : ℚ
  rt_ygc_time : ℚ
  rt_fgc_freq : ℚ
  rt_fgc_time : ℚ
deriving DecidableEq, Repr

/-- The all-zero initial value of the `rt_*` columns. -/
def zeroRt : RtFields := ⟨0, 0, 0, 0⟩

/-- The loop body of `calculate_realtime_gc` for row `cur` with predecessor
`prev`: no update happens (columns stay 0) unless the elapsed time is
positive; frequencies are set when `minutes > 0`, per-event times only when
the corresponding raw counter strictly increased. -/
def rtForRow (prev cur : Row) : RtFields :=
  let time_diff : ℤ := cur.timestamp - prev.timestamp
  if time_diff > 0 then
    let ygc_diff := qSub cur.raw_ygc prev.raw_ygc
    let ygc_time_diff := qSub cur.raw_ygc_time prev.raw_ygc_time
    let fgc_diff := qSub cur.raw_fgc prev.raw_fgc
    let fgc_time_diff := qSub cur.raw_fgc_time prev.raw_fgc_time
    let minutes : ℚ := qDiv (time_diff : ℚ) 60
    { rt_ygc_freq := if minutes > 0 then qDiv ygc_diff minutes else 0
    , rt_ygc_time := if ygc_diff > 0 then qDiv (qMul ygc_time_diff 1000) ygc_diff else 0
    , rt_fgc_freq := if minutes > 0 then qDiv fgc_diff minutes else 0
    , rt_fgc_time := if fgc_diff > 0 then qDiv (qMul fgc_time_diff 1000) fgc_diff else 0 }
  else zeroRt

/-- The raw GC counters of `a` are at most those of `b` (the counters are
monotone when `a` precedes `b` in time, as the spec's data model states). -/
def rawMono (a b : Row) : Prop :=
  a.raw_ygc ≤ b.raw_ygc ∧ a.raw_ygc_time ≤ b.raw_ygc_time ∧
  a.raw_fgc ≤ b.raw_fgc ∧ a.raw_fgc_time ≤ b.raw_fgc_time

instance (a b : Row) : Decidable (rawMono a b) :=
  inferInstanceAs (Decidable (a.raw_ygc ≤ b.raw_ygc ∧ a.raw_ygc_time ≤ b.raw_ygc_time ∧
    a.raw_fgc ≤ b.raw_fgc ∧ a.raw_fgc_time ≤ b.raw_fgc_time))

/-- Rows `1..` of `calculate_realtime_gc`, each paired with its `rt_*` values
computed from the delta to the predecessor. -/
def rtPairs : Row → List Row → List (Row × RtFields)
  | _, [] => []
  | prev, cur :: t => (cur, rtForRow prev cur) :: rtPairs cur t

/-- `calculate_realtime_gc`: sort by timestamp, compute the delta-based
columns for rows `1..`, then seed row 0's `rt_*` columns directly from its own
cumulative-average fields.  On an empty frame `df.index[0]` raises
`IndexError`. -/
def calculate_realtime_gc (rows : List Row) : Except PyErr (List (Row × RtFields)) :=
  match sortRows rows with
  | [] => .error .indexError
  | r0 :: rest =>
    .ok ((r0, ⟨r0.ygc_freq, r0.ygc_time, r0.fgc_freq, r0.fgc_time⟩) :: rtPairs r0 rest)

/-- `os.path.basename` (POSIX): the suffix after the last `'/'`. -/
def pyBasename (p : List Char) : List Char :=
  p.foldl (fun acc c => if c = '/' then [] else acc ++ [c]) []

/-- Index of the last `'.'` in a name, if any. -/
def lastDotIdx (name : List Char) : Option ℕ :=
  match name.reverse.findIdx? (fun c => c = '.') with
  | none => none
  | some k => some (name.length - 1 - k)

/-- `os.path.splitext` on a bare file name (no directory separator): split at
the last dot, except that a name whose every character before that dot is a
dot (e.g. `.bashrc`, `..`) has no extension. -/
def splitextName (name : List Char) : List Char × List Char :=
  match lastDotIdx name with
  | none => (name, [])
  | some i =>
    if (name.take i).any (fun c => c ≠ '.') then (name.take i, name.drop i)
    else (name, [])

/-- The chart file name `create_visualizations` saves to:
`os.path.splitext(os.path.basename(log_file))[0] + '-analysis.png'`. -/
def createVisOutputName (log_file : List Char) : List Char :=
  (splitextName (pyBasename log_file)).1 ++ "-analysis.png".data

/-- `create_visualizations`: resample, compute the real-time GC columns, and
save one image (chart rendering itself is out of scope; the artifact name is
returned).  Any exception propagates. -/
def create_visualizations (df : List Row) (log_file : String) : Except PyErr (List Char) :=
  match calculate_realtime_gc (resample_data_by_minute df) with
  | .error e => .error e
  | .ok _ => .ok (createVisOutputName log_file.data)

/-- The `try` block of `main`: parse, analyze, render; the first exception
aborts the rest.  On success the produced artifact name is returned. -/
def pipelineRun (content : List Char) (log_file : String) :
    Except PyErr (AnalyzeResult × List Char) := do
  let df ← parse_log_file content
  let res ← analyze_data df
  let art ← create_visualizations df log_file
  pure (res, art)

/-- Exit code of the `try` block: 0 when it completes, 1 when the top-level
handler catches an exception. -/
def runPipeCode : Except PyErr (AnalyzeResult × List Char) → ℕ
  | .error _ => 1
  | .ok _ => 0

/-- Exit code after `open`: 1 when `open` raises `IOError` (missing or
unreadable file), otherwise the `try` block runs on the content. -/
def runOpenCode : Option (List Char) → String → ℕ
  | none, _ => 1
  | some content, lf => runPipeCode (pipelineRun content lf)

/-- `main`, over an abstract world: `argv` (including the program name) and a
file system mapping a path to its content (`none` = `open` raises `IOError`).
Returns the process exit code: `sys.exit(1)` on wrong argument count, on
`IOError`, and on any exception caught by the top-level handler; 0 otherwise
(including the `test-fonts` self-test, which swallows its own errors). -/
def runMain (argv : List String) (fs : String → Option (List Char)) : ℕ :=
  if argv.length ≠ 2 then 1
  else if argv.getD 1 "" = "test-fonts" then 0
  else runOpenCode (fs (argv.getD 1 "")) (argv.getD 1 "")

/-- Block 1 of the spec's end-to-end scenario (section 8). -/
def c1Block1 : String :=
  "Current: 2024-01-01 00:00:00, PID=123, Memory=100.0 MB\nRaw GC: Young GC=5, Young GC Time=0.500, Full GC=0, Full GC Time=0.000"

/-- Block 2 of the spec's end-to-end scenario, one minute later. -/
def c1Block2 : String :=
  "Current: 2024-01-01 00:01:00, PID=123, Memory=110.0 MB\nRaw GC: Young GC=8, Young GC Time=0.800, Full GC=0, Full GC Time=0.000"

/-- The 80-dash separator line as a string. -/
def sepLine : String := String.mk (List.replicate 80 '-')

/-- The two-block input file of the end-to-end scenario. -/
def c1Content : List Char := (c1Block1 ++ "\n" ++ sepLine ++ "\n" ++ c1Block2).data

/-- The record parsed from block 1 (timestamp 2024-01-01 00:00:00 UTC in
epoch seconds; `0.500` is exactly 1/2). -/
def c1Row1 : Row :=
  { timestamp := 1704067200, memory := 100, avg_memory := 0, avg_cpu := 0,
    avg_threads := 0, ygc_freq := 0, ygc_time := 0, fgc_freq := 0, fgc_time := 0,
    raw_ygc := 5, raw_ygc_time := Rat.divInt 1 2, raw_fgc := 0, raw_fgc_time := 0,
    instant_ygc := 0, instant_ygc_time := 0, instant_fgc := 0, instant_fgc_time := 0 }

/-- The record parsed from block 2 (`0.800` is exactly 4/5). -/
def c1Row2 : Row :=
  { timestamp := 1704067260, memory := 110, avg_memory := 0, avg_cpu := 0,
    avg_threads := 0, ygc_freq := 0, ygc_time := 0, fgc_freq := 0, fgc_time := 0,
    raw_ygc := 8, raw_ygc_time := Rat.divInt 4 5, raw_fgc := 0, raw_fgc_time := 0,
    instant_ygc := 0, instant_ygc_time := 0, instant_fgc := 0, instant_fgc_time := 0 }

/-- A block whose `Current` line matches the regex but whose timestamp text
is not a valid `%Y-%m-%d %H:%M:%S` date: `strptime` raises `ValueError`. -/
def badDateEntry : List Char := "Current: X, PID=1, Memory=1.0 MB".data

/-- A block whose `Current` captures both convert, but whose final
`Average:` line matches the regex with a non-numeric lazy capture (`abc`),
so `float()` on that capture raises `ValueError` and no record is emitted:
even successful `Current` conversions do not guarantee a record. -/
def badAvgEntry : List Char :=
  "Current: 2024-01-01 00:00:00, PID=1, Memory=1.0 MB\nAverage: Memory=abc MB, CPU=1.0%, Threads=2".data

/-- A block containing only a well-formed `Current` line. -/
def onlyCurrentEntry : List Char :=
  "Current: 2024-01-01 00:00:00, PID=123, Memory=100.0 MB".data

/-- The record parsed from `onlyCurrentEntry`: every non-`Current` field 0. -/
def onlyCurrentRow : Row :=
  { timestamp := 1704067200, memory := 100, avg_memory := 0, avg_cpu := 0,
    avg_threads := 0, ygc_freq := 0, ygc_time := 0, fgc_freq := 0, fgc_time := 0,
    raw_ygc := 0, raw_ygc_time := 0, raw_fgc := 0, raw_fgc_time := 0,
    instant_ygc := 0, instant_ygc_time := 0, instant_fgc := 0, instant_fgc_time := 0 }

/-- Two rows one minute apart on exact minute boundaries (witness input). -/
def wRowA : Row := { zeroRow with timestamp := 6000, memory := 5 }

/-- Second row of the minute-aligned witness table. -/
def wRowB : Row := { zeroRow with timestamp := 6060, memory := 15 }

/-- A row one hour after `wRowA` with 10 MB more memory (witness input). -/
def wRowC : Row := { zeroRow with timestamp := 9600, memory := 15 }

/-! ### Bridge lemmas: the `Rat.divInt`-based operations agree with ℚ arithmetic -/

theorem qAdd_eq (a b : ℚ) : qAdd a b = a + b := by
  have ha : (a.den : ℚ) ≠ 0 := Nat.cast_ne_zero.mpr a.den_nz
  have hb : (b.den : ℚ) ≠ 0 := Nat.cast_ne_zero.mpr b.den_nz
  have hA : (a.num : ℚ) = a * a.den := (div_eq_iff ha).mp (Rat.num_div_den a)
  have hB : (b.num : ℚ) = b * b.den := (div_eq_iff hb).mp (Rat.num_div_den b)
  rw [qAdd, Rat.divInt_eq_div]
  push_cast
  rw [hA, hB, div_eq_iff (mul_ne_zero ha hb)]
  ring

theorem qSub_eq (a b : ℚ) : qSub a b = a - b := by
  have ha : (a.den : ℚ) ≠ 0 := Nat.cast_ne_zero.mpr a.den_nz
  have hb : (b.den : ℚ) ≠ 0 := Nat.cast_ne_zero.mpr b.den_nz
  have hA : (a.num : ℚ) = a * a.den := (div_eq_iff ha).mp (Rat.num_div_den a)
  have hB : (b.num : ℚ) = b * b.den := (div_eq_iff hb).mp (Rat.num_div_den b)
  rw [qSub, Rat.divInt_eq_div]
  push_cast
  rw [hA, hB, div_eq_iff (mul_ne_zero ha hb)]
  ring

theorem qMul_eq (a b : ℚ) : qMul a b = a * b := by
  have ha : (a.den : ℚ) ≠ 0 := Nat.cast_ne_zero.mpr a.den_nz
  have hb : (b.den : ℚ) ≠ 0 := Nat.cast_ne_zero.mpr b.den_nz
  have hA : (a.num : ℚ) = a * a.den := (div_eq_iff ha).mp (Rat.num_div_den a)
  have hB : (b.num : ℚ) = b * b.den := (div_eq_iff hb).mp (Rat.num_div_den b)
  rw [qMul, Rat.divInt_eq_div]
  push_cast
  rw [hA, hB, div_eq_iff (mul_ne_zero ha hb)]
  ring

theorem qDiv_eq (a b : ℚ) : qDiv a b = a / b := by
  by_cases hb : b = 0
  · subst hb
    simp [qDiv]
  · have ha : (a.den : ℚ) ≠ 0 := Nat.cast_ne_zero.mpr a.den_nz
    have hbd : (b.den : ℚ) ≠ 0 := Nat.cast_ne_zero.mpr b.den_nz
    have hbn : (b.num : ℚ) ≠ 0 :=
      Int.cast_ne_zero.mpr (Rat.num_ne_zero.mpr hb)
    have hA : (a.num : ℚ) = a * a.den := (div_eq_iff ha).mp (Rat.num_div_den a)
    have hB : (b.num : ℚ) = b * b.den := (div_eq_iff hbd).mp (Rat.num_div_den b)
    rw [qDiv, Rat.divInt_eq_div]
    push_cast
    rw [div_eq_div_iff (mul_ne_zero ha hbn) hb, hA, hB]
    ring

theorem pow10_eq (e : ℕ) : pow10 e = 10 ^ e := by
  rw [pow10]
  push_cast
  rfl

theorem qSum_eq (l : List ℚ) : qSum l = l.sum := by
  induction l with
  | nil => rfl
  | cons x t ih => rw [qSum, qAdd_eq, ih, List.sum_cons]

/-! ### Fold lemmas: pandas column `min`/`max` -/

theorem foldMin_le_init {α : Type} [LinearOrder α] (g : Row → α) (l : List Row) :
    ∀ a, foldMin g a l ≤ a := by
  induction l with
  | nil => intro a; exact le_refl a
  | cons x t ih =>
    intro a
    have h1 : foldMin g a (x :: t) = foldMin g (min a (g x)) t := rfl
    rw [h1]
    exact le_trans (ih (min a (g x))) (min_le_left _ _)

theorem foldMin_le_mem {α : Type} [LinearOrder α] (g : Row → α) (l : List Row) :
    ∀ a, ∀ x ∈ l, foldMin g a l ≤ g x := by
  induction l with
  | nil => intro a x hx; cases hx
  | cons y t ih =>
    intro a x hx
    have h1 : foldMin g a (y :: t) = foldMin g (min a (g y)) t := rfl
    rw [h1]
    rcases List.mem_cons.mp hx with he | ht
    · subst he
      exact le_trans (foldMin_le_init g t (min a (g x))) (min_le_right _ _)
    · exact ih (min a (g y)) x ht

theorem foldMin_attained {α : Type} [LinearOrder α] (g : Row → α) (l : List Row) :
    ∀ a, foldMin g a l = a ∨ ∃ x ∈ l, foldMin g a l = g x := by
  induction l with
  | nil => intro a; exact Or.inl rfl
  | cons y t ih =>
    intro a
    have h1 : foldMin g a (y :: t) = foldMin g (min a (g y)) t := rfl
    rw [h1]
    rcases ih (min a (g y)) with he | ⟨x, hx, he⟩
    · rcases min_choice a (g y) with hm | hm
      · exact Or.inl (he.trans hm)
      · exact Or.inr ⟨y, List.mem_cons_self y t, he.trans hm⟩
    · exact Or.inr ⟨x, List.mem_cons_of_mem y hx, he⟩

theorem foldMax_init_le {α : Type} [LinearOrder α] (g : Row → α) (l : List Row) :
    ∀ a, a ≤ foldMax g a l := by
  induction l with
  | nil => intro a; exact le_refl a
  | cons x t ih =>
    intro a
    have h1 : foldMax g a (x :: t) = foldMax g (max a (g x)) t := rfl
    rw [h1]
    exact le_trans (le_max_left _ _) (ih (max a (g x)))

theorem foldMax_mem_le {α : Type} [LinearOrder α] (g : Row → α) (l : List Row) :
    ∀ a, ∀ x ∈ l, g x ≤ foldMax g a l := by
  induction l with
  | nil => intro a x hx; cases hx
  | cons y t ih =>
    intro a x hx
    have h1 : foldMax g a (y :: t) = foldMax g (max a (g y)) t := rfl
    rw [h1]
    rcases List.mem_cons.mp hx with he | ht
    · subst he
      exact le_trans (le_max_right _ _) (foldMax_init_le g t (max a (g x)))
    · exact ih (max a (g y)) x ht

theorem foldMax_attained {α : Type} [LinearOrder α] (g : Row → α) (l : List Row) :
    ∀ a, foldMax g a l = a ∨ ∃ x ∈ l, foldMax g a l = g x := by
  induction l with
  | nil => intro a; exact Or.inl rfl
  | cons y t ih =>
    intro a
    have h1 : foldMax g a (y :: t) = foldMax g (max a (g y)) t := rfl
    rw [h1]
    rcases ih (max a (g y)) with he | ⟨x, hx, he⟩
    · rcases max_choice a (g y) with hm | hm
      · exact Or.inl (he.trans hm)
      · exact Or.inr ⟨y, List.mem_cons_self y t, he.trans hm⟩
    · exact Or.inr ⟨x, List.mem_cons_of_mem y hx, he⟩

theorem foldMin_spec {α : Type} [LinearOrder α] (g : Row → α) (r : Row) (rs : List Row) :
    (∀ x ∈ r :: rs, foldMin g (g r) rs ≤ g x) ∧ ∃ x ∈ r :: rs, foldMin g (g r) rs = g x := by
  constructor
  · intro x hx
    rcases List.mem_cons.mp hx with he | ht
    · subst he; exact foldMin_le_init g rs (g x)
    · exact foldMin_le_mem g rs (g r) x ht
  · rcases foldMin_attained g rs (g r) with he | ⟨x, hx, he⟩
    · exact ⟨r, List.mem_cons_self r rs, he⟩
    · exact ⟨x, List.mem_cons_of_mem r hx, he⟩

theorem foldMax_spec {α : Type} [LinearOrder α] (g : Row → α) (r : Row) (rs : List Row) :
    (∀ x ∈ r :: rs, g x ≤ foldMax g (g r) rs) ∧ ∃ x ∈ r :: rs, foldMax g (g r) rs = g x := by
  constructor
  · intro x hx
    rcases List.mem_cons.mp hx with he | ht
    · subst he; exact foldMax_init_le g rs (g x)
    · exact foldMax_mem_le g rs (g r) x ht
  · rcases foldMax_attained g rs (g r) with he | ⟨x, hx, he⟩
    · exact ⟨r, List.mem_cons_self r rs, he⟩
    · exact ⟨x, List.mem_cons_of_mem r hx, he⟩

/-! ### Claim theorems -/

/-- C1: on the two-block file of spec section 8, parsing produces exactly the
two expected records, `memory_growth` is 10, and after resampling the second
row's real-time young-GC frequency is 3 events/min and its per-event young-GC
time is `(0.800 - 0.500) * 1000 / 3 = 100` ms exactly. -/
theorem c1_end_to_end :
    parse_log_file c1Content = .ok [c1Row1, c1Row2] ∧
    (analyze_data [c1Row1, c1Row2]).map AnalyzeResult.memory_growth = .ok 10 ∧
    (calculate_realtime_gc (resample_data_by_minute [c1Row1, c1Row2])).map
        (fun l => ((l.getD 1 (zeroRow, zeroRt)).2.rt_ygc_freq,
                   (l.getD 1 (zeroRow, zeroRt)).2.rt_ygc_time)) =
      .ok (3, 100) :=
  ⟨by decide, by decide, by decide⟩

/-- C2 (amended): the parser emits a LogRecord only if the block matches the
`Current` pattern — a block without a `Current` match is silently dropped
(`.ok none`: no record and no error) — and in every emitted record, each
field belonging to a pattern (Average GC, Instant GC, Average, Raw GC) that
does not match within the block equals exactly 0, without raising an error.
(Only the converse direction of the original claim is dropped: a block whose
`Current` line does match can still raise `ValueError` during a numeric or
datetime conversion and emit nothing — see
`c2_current_match_not_sufficient`.) -/
theorem c2_missing_patterns_default_to_zero (entry : List Char) :
    (reSearch currentToks entry = none → parseEntry entry = .ok none) ∧
    (∀ r : Row, parseEntry entry = .ok (some r) →
      reSearch currentToks entry ≠ none ∧
      (reSearch gcToks entry = none →
        r.ygc_freq = 0 ∧ r.ygc_time = 0 ∧ r.fgc_freq = 0 ∧ r.fgc_time = 0) ∧
      (reSearch instantToks entry = none →
        r.instant_ygc = 0 ∧ r.instant_ygc_time = 0 ∧
        r.instant_fgc = 0 ∧ r.instant_fgc_time = 0) ∧
      (reSearch rawGcToks entry = none →
        r.raw_ygc = 0 ∧ r.raw_ygc_time = 0 ∧ r.raw_fgc = 0 ∧ r.raw_fgc_time = 0) ∧
      (reSearch avgToks entry = none →
        r.avg_memory = 0 ∧ r.avg_cpu = 0 ∧ r.avg_threads = 0)) := by
  constructor
  · intro h
    simp only [parseEntry, h]
  · intro r hr
    unfold parseEntry at hr
    rcases hc : reSearch currentToks entry with _ | gs
    · simp only [hc] at hr
      exact Option.noConfusion (Except.ok.inj hr)
    · simp only [hc] at hr
      rcases hts : strpTimestamp (gs.getD 0 []) with _ | ts
      · simp only [hts] at hr; exact Except.noConfusion hr
      · simp only [hts] at hr
        rcases hmem : pyFloat (gs.getD 2 []) with _ | mem
        · simp only [hmem] at hr; exact Except.noConfusion hr
        · simp only [hmem] at hr
          rcases havg : reSearch avgToks entry with _ | g
          · simp only [havg] at hr
            have h1 := Option.some.inj (Except.ok.inj hr)
            subst h1
            refine ⟨fun h => Option.noConfusion h, ?_, ?_, ?_, ?_⟩
            · intro h; simp [h]
            · intro h; simp [h]
            · intro h; simp [h]
            · intro h; exact ⟨rfl, rfl, rfl⟩
          · simp only [havg] at hr
            rcases ha0 : pyFloat (g.getD 0 []) with _ | a0
            · simp only [ha0] at hr; exact Except.noConfusion hr
            · simp only [ha0] at hr
              rcases ha1 : pyFloat (g.getD 1 []) with _ | a1
              · simp only [ha1] at hr; exact Except.noConfusion hr
              · simp only [ha1] at hr
                rcases ha2 : pyFloat (g.getD 2 []) with _ | a2
                · simp only [ha2] at hr; exact Except.noConfusion hr
                · simp only [ha2] at hr
                  have h1 := Option.some.inj (Except.ok.inj hr)
                  subst h1
                  refine ⟨fun h => Option.noConfusion h, ?_, ?_, ?_, ?_⟩
                  · intro h; simp [h]
                  · intro h; simp [h]
                  · intro h; simp [h]
                  · intro h; exact Option.noConfusion h

/-- C2 counterexample: in `badDateEntry` the `Current` pattern does match,
yet no record is emitted — `strptime` raises `ValueError` on the captured
timestamp text and the whole parse aborts, so "emits a record if and only if
the block matches the Current pattern, without raising an error" is false.
Moreover no conversion-based iff on the `Current` captures alone can replace
it: in `badAvgEntry` both `Current` captures convert (the timestamp parses
and `float('1.0')` succeeds), yet the matching `Average:` line's non-numeric
capture makes `float()` raise and the block still emits nothing. -/
theorem c2_current_match_not_sufficient :
    reSearch currentToks badDateEntry ≠ none ∧
    parseEntry badDateEntry = .error .valueError ∧
    parse_log_file badDateEntry = .error .valueError ∧
    reSearch currentToks badAvgEntry ≠ none ∧
    strpTimestamp "2024-01-01 00:00:00".data ≠ none ∧
    pyFloat "1.0".data ≠ none ∧
    reSearch avgToks badAvgEntry ≠ none ∧
    parseEntry badAvgEntry = .error .valueError ∧
    parse_log_file badAvgEntry = .error .valueError :=
  ⟨by decide, by decide, by decide, by decide, by decide, by decide,
   by decide, by decide, by decide⟩

/-- C2 witness: a concrete block holding only a `Current` line parses to a
record whose secondary-pattern fields are all zero. -/
theorem c2_witness :
    parseEntry onlyCurrentEntry = .ok (some onlyCurrentRow) ∧
    onlyCurrentRow.ygc_freq = 0 ∧ onlyCurrentRow.raw_ygc = 0 ∧
    onlyCurrentRow.instant_ygc = 0 ∧ onlyCurrentRow.avg_memory = 0 :=
  have h : parseEntry onlyCurrentEntry = .ok (some onlyCurrentRow) := by decide
  have h2 := (c2_missing_patterns_default_to_zero onlyCurrentEntry).2 onlyCurrentRow h
  ⟨h, (h2.2.1 (by decide)).1, (h2.2.2.2.1 (by decide)).1,
     (h2.2.2.1 (by decide)).1, (h2.2.2.2.2 (by decide)).1⟩

/-- C8: the chart artifact name is the input file's base name with its
extension (as `os.path.splitext` computes it) replaced by the fixed suffix
`-analysis.png`; the two `splitext` parts reassemble the base name, so this
is exactly "replace the extension". -/
theorem c8_artifact_name (p : List Char) :
    createVisOutputName p = (splitextName (pyBasename p)).1 ++ "-analysis.png".data ∧
    (splitextName (pyBasename p)).1 ++ (splitextName (pyBasename p)).2 = pyBasename p ∧
    (∀ (df : List Row) (lf : String) (art : List Char),
      create_visualizations df lf = .ok art → art = createVisOutputName lf.data) := by
  refine ⟨rfl, ?_, ?_⟩
  · unfold splitextName
    rcases lastDotIdx (pyBasename p) with _ | i
    · simp
    · by_cases h : (List.take i (pyBasename p)).any (fun c => c ≠ '.')
      · simp only [h]
        simp [List.take_append_drop]
      · simp only [h]
        simp
  · intro df lf art h
    unfold create_visualizations at h
    rcases hc : calculate_realtime_gc (resample_data_by_minute df) with _ | l
    · rw [hc] at h; exact Except.noConfusion h
    · rw [hc] at h
      exact (Except.ok.inj h).symm

/-- C8 witness: the implication instantiated on the scenario table. -/
theorem c8_witness :
    createVisOutputName "usage.log".data = "usage-analysis.png".data ∧
    create_visualizations [c1Row1, c1Row2] "usage.log" = .ok "usage-analysis.png".data :=
  have h : create_visualizations [c1Row1, c1Row2] "usage.log" =
      .ok "usage-analysis.png".data := by decide
  have h2 := (c8_artifact_name "usage.log".data).2.2 [c1Row1, c1Row2] "usage.log"
    ("usage-analysis.png".data) h
  ⟨h2.symm, h⟩

/-- C5 (amended): the process exits 0 or 1; it exits 0 exactly when the
argument count is right (one argument besides the program name) and either
the argument is the `test-fonts` literal or the file is readable and the
whole pipeline raises no exception.  In every other case — wrong argument
count (missing or extra), unreadable file, or any pipeline exception — it
exits 1. -/
theorem c5_exit_codes (argv : List String) (fs : String → Option (List Char)) :
    (runMain argv fs = 0 ∨ runMain argv fs = 1) ∧
    (runMain argv fs = 0 ↔
      (argv.length = 2 ∧
        (argv.getD 1 "" = "test-fonts" ∨
         ∃ c, fs (argv.getD 1 "") = some c ∧
              (pipelineRun c (argv.getD 1 "")).isOk = true))) := by
  unfold runMain
  by_cases hlen : argv.length = 2
  · rw [if_neg (by simp [hlen])]
    by_cases hf : argv.getD 1 "" = "test-fonts"
    · rw [if_pos hf]
      exact ⟨Or.inl rfl, ⟨fun _ => ⟨hlen, Or.inl hf⟩, fun _ => rfl⟩⟩
    · rw [if_neg hf]
      rcases hfs : fs (argv.getD 1 "") with _ | c
      · refine ⟨Or.inr rfl, ⟨fun h0 => absurd h0 (by simp [runOpenCode]), ?_⟩⟩
        rintro ⟨-, h | ⟨c, hc, -⟩⟩
        · exact absurd h hf
        · exact Option.noConfusion hc
      · simp only [runOpenCode]
        rcases hpl : pipelineRun c (argv.getD 1 "") with e | v
        · refine ⟨Or.inr (by simp [runPipeCode]),
            ⟨fun h0 => absurd h0 (by simp [runPipeCode]), ?_⟩⟩
          rintro ⟨-, h | ⟨c2, hc2, hok⟩⟩
          · exact absurd h hf
          · obtain rfl : c2 = c := (Option.some.inj hc2).symm
            rw [hpl] at hok
            exact Bool.noConfusion hok
        · exact ⟨Or.inl (by simp [runPipeCode]),
            ⟨fun _ => ⟨hlen, Or.inr ⟨c, rfl, by rw [hpl]; rfl⟩⟩, fun _ => by simp [runPipeCode]⟩⟩
  · rw [if_pos hlen]
    exact ⟨Or.inr rfl, ⟨fun h0 => absurd h0 (by simp), fun h => absurd h.1 hlen⟩⟩

/-- C5 counterexample: with an extra third argument the process exits 1,
although no argument is missing, the input file is readable, and the
pipeline would succeed — the claim as stated predicts exit code 0 here. -/
theorem c5_extra_argument_exits_one :
    runMain ["analyze_usage_log.py", "usage.log", "extra"] (fun _ => some c1Content) = 1 ∧
    (["analyze_usage_log.py", "usage.log", "extra"] : List String).length = 3 ∧
    (fun (_ : String) => some c1Content) "usage.log" = some c1Content ∧
    (pipelineRun c1Content "usage.log").isOk = true :=
  ⟨by decide, by decide, rfl, by decide⟩

/-- C5 witness: a correct invocation on the scenario file exits 0. -/
theorem c5_witness :
    runMain ["analyze_usage_log.py", "usage.log"] (fun _ => some c1Content) = 0 :=
  (c5_exit_codes ["analyze_usage_log.py", "usage.log"] (fun _ => some c1Content)).2.mpr
    ⟨by decide, Or.inr ⟨c1Content, rfl, by decide⟩⟩

/-- C9 (amended): when no block has a `Current` match, parsing yields the
empty table; `analyze_data` then raises `KeyError` at its first column access
(`df['timestamp']`) — an empty parse builds a DataFrame with no columns —
so no summary is reported, no chart is produced, and the process exits 1. -/
theorem c9_all_blocks_dropped (content : List Char)
    (h : ∀ e ∈ splitSepList content, reSearch currentToks e = none) :
    parse_log_file content = .ok [] ∧
    analyze_data ([] : List Row) = .error (PyErr.keyError "timestamp") ∧
    (∀ lf : String, pipelineRun content lf = .error (PyErr.keyError "timestamp")) ∧
    (∀ (p name : String) (fs : String → Option (List Char)),
      name ≠ "test-fonts" → fs name = some content → runMain [p, name] fs = 1) := by
  have hp : ∀ es : List (List Char), (∀ e ∈ es, reSearch currentToks e = none) →
      parseEntries es = .ok [] := by
    intro es
    induction es with
    | nil => intro _; rfl
    | cons e t ih =>
      intro he
      have h1 : reSearch currentToks e = none := he e (List.mem_cons_self e t)
      have h2 : parseEntries t = .ok [] :=
        ih (fun x hx => he x (List.mem_cons_of_mem e hx))
      have hpe : parseEntry e = .ok none := by
        simp only [parseEntry, h1]
      unfold parseEntries
      by_cases hs : e.all isPySpace = true
      · simp only [hs, if_true]
        exact h2
      · simp only [hs, if_false, hpe]
        exact h2
  have h1 : parse_log_file content = .ok [] := hp (splitSepList content) h
  refine ⟨h1, rfl, ?_, ?_⟩
  · intro lf
    simp only [pipelineRun, h1]
    rfl
  · intro p name fs hn hf
    have h3 : pipelineRun content name = .error (PyErr.keyError "timestamp") := by
      simp only [pipelineRun, h1]
      rfl
    simp [runMain, runOpenCode, runPipeCode, hn, hf, h3]

/-- C9 counterexample: the exception on the empty table is the `KeyError`
from reading the missing `timestamp` column, not the `IndexError` that
reading the table's last row (`df.iloc[-1]`) would raise — execution never
reaches the last-row read. -/
theorem c9_error_is_missing_column_not_last_row :
    analyze_data ([] : List Row) = .error (PyErr.keyError "timestamp") ∧
    PyErr.keyError "timestamp" ≠ PyErr.indexError :=
  ⟨rfl, by decide⟩

/-- C9 witness: the empty file parses to no records and the run exits 1. -/
theorem c9_witness :
    parse_log_file [] = .ok [] ∧
    runMain ["analyze_usage_log.py", "empty.log"] (fun _ => some []) = 1 :=
  have h := c9_all_blocks_dropped [] (by decide)
  ⟨h.1, h.2.2.2 "analyze_usage_log.py" "empty.log" (fun _ => some []) (by decide) rfl⟩

/-! ### Structure of `calculate_realtime_gc`'s output -/

theorem insertRow_length (r : Row) (l : List Row) :
    (insertRow r l).length = l.length + 1 := by
  induction l with
  | nil => rfl
  | cons x t ih =>
    unfold insertRow
    by_cases h : x.timestamp ≤ r.timestamp
    · rw [if_pos h]
      simp [ih]
    · rw [if_neg h]
      simp

theorem sortRows_length (l : List Row) : (sortRows l).length = l.length := by
  induction l with
  | nil => rfl
  | cons r t ih =>
    unfold sortRows
    rw [insertRow_length, ih, List.length_cons]

theorem rtPairs_length (p : Row) (t : List Row) : (rtPairs p t).length = t.length := by
  induction t generalizing p with
  | nil => rfl
  | cons x s ih => simp [rtPairs, ih]

theorem rtPairs_getD (t : List Row) : ∀ (p : Row) (i : ℕ), i < t.length →
    (rtPairs p t).getD i (zeroRow, zeroRt) =
      (t.getD i zeroRow,
        rtForRow (if i = 0 then p else t.getD (i - 1) zeroRow) (t.getD i zeroRow)) := by
  induction t with
  | nil => intro p i hi; cases hi
  | cons x s ih =>
    intro p i hi
    cases i with
    | zero => rfl
    | succ j =>
      have hj : j < s.length := Nat.lt_of_succ_lt_succ hi
      have h1 : (rtPairs p (x :: s)).getD (j + 1) (zeroRow, zeroRt) =
          (rtPairs x s).getD j (zeroRow, zeroRt) := rfl
      rw [h1, ih x j hj]
      cases j with
      | zero => rfl
      | succ k => rfl

/-- The loop body zeroes everything when the elapsed time is not positive,
and zeroes a per-event time when its counter delta is not positive. -/
theorem rtForRow_guards (prev cur : Row) :
    (cur.timestamp - prev.timestamp ≤ 0 →
      (rtForRow prev cur).rt_ygc_freq = 0 ∧ (rtForRow prev cur).rt_fgc_freq = 0 ∧
      (rtForRow prev cur).rt_ygc_time = 0 ∧ (rtForRow prev cur).rt_fgc_time = 0) ∧
    (cur.raw_ygc - prev.raw_ygc ≤ 0 → (rtForRow prev cur).rt_ygc_time = 0) ∧
    (cur.raw_fgc - prev.raw_fgc ≤ 0 → (rtForRow prev cur).rt_fgc_time = 0) := by
  unfold rtForRow
  by_cases htd : cur.timestamp - prev.timestamp > 0
  · rw [if_pos htd]
    refine ⟨fun hle => absurd htd (not_lt.mpr hle), fun hy => ?_, fun hf => ?_⟩
    · have hnot : ¬ qSub cur.raw_ygc prev.raw_ygc > 0 := by
        rw [qSub_eq]; exact not_lt.mpr hy
      dsimp only
      rw [if_neg hnot]
    · have hnot : ¬ qSub cur.raw_fgc prev.raw_fgc > 0 := by
        rw [qSub_eq]; exact not_lt.mpr hf
      dsimp only
      rw [if_neg hnot]
  · rw [if_neg htd]
    exact ⟨fun _ => ⟨rfl, rfl, rfl, rfl⟩, fun _ => rfl, fun _ => rfl⟩

/-- C7: on every non-empty input table, row 0 of `calculate_realtime_gc`'s
output has its four `rt_*` columns equal to that row's own cumulative-average
fields (`ygc_freq`, `ygc_time`, `fgc_freq`, `fgc_time`), not a delta. -/
theorem c7_row_zero_seeded (rows : List Row) (h : rows ≠ []) :
    ∃ r0 rest, calculate_realtime_gc rows =
      .ok ((r0, ⟨r0.ygc_freq, r0.ygc_time, r0.fgc_freq, r0.fgc_time⟩) :: rest) := by
  unfold calculate_realtime_gc
  rcases hs : sortRows rows with _ | ⟨r0, rest⟩
  · exfalso
    have hl := sortRows_length rows
    rw [hs] at hl
    exact h (List.length_eq_zero.mp hl.symm)
  · exact ⟨r0, rtPairs r0 rest, rfl⟩

/-- C7 witness: the seeding on a concrete one-row table. -/
theorem c7_witness :
    ∃ r0 rest, calculate_realtime_gc [c1Row1] =
      .ok ((r0, ⟨r0.ygc_freq, r0.ygc_time, r0.fgc_freq, r0.fgc_time⟩) :: rest) :=
  c7_row_zero_seeded [c1Row1] (by decide)

/-- C3: in `calculate_realtime_gc`'s output, for every row `i > 0`: if the
elapsed time since the previous row is not positive then both real-time
frequencies (and both per-event times) are exactly 0, and if a raw counter
delta is not positive then the corresponding real-time per-event time is
exactly 0 — never a division error. -/
theorem c3_division_guards (rows : List Row) (l : List (Row × RtFields))
    (h : calculate_realtime_gc rows = .ok l) (i : ℕ) (hi : i + 1 < l.length) :
    ((l.getD (i + 1) (zeroRow, zeroRt)).1.timestamp -
        (l.getD i (zeroRow, zeroRt)).1.timestamp ≤ 0 →
      (l.getD (i + 1) (zeroRow, zeroRt)).2.rt_ygc_freq = 0 ∧
      (l.getD (i + 1) (zeroRow, zeroRt)).2.rt_fgc_freq = 0 ∧
      (l.getD (i + 1) (zeroRow, zeroRt)).2.rt_ygc_time = 0 ∧
      (l.getD (i + 1) (zeroRow, zeroRt)).2.rt_fgc_time = 0) ∧
    ((l.getD (i + 1) (zeroRow, zeroRt)).1.raw_ygc -
        (l.getD i (zeroRow, zeroRt)).1.raw_ygc ≤ 0 →
      (l.getD (i + 1) (zeroRow, zeroRt)).2.rt_ygc_time = 0) ∧
    ((l.getD (i + 1) (zeroRow, zeroRt)).1.raw_fgc -
        (l.getD i (zeroRow, zeroRt)).1.raw_fgc ≤ 0 →
      (l.getD (i + 1) (zeroRow, zeroRt)).2.rt_fgc_time = 0) := by
  unfold calculate_realtime_gc at h
  rcases hs : sortRows rows with _ | ⟨r0, rest⟩
  · simp only [hs] at h
    exact Except.noConfusion h
  · simp only [hs] at h
    have hl := Except.ok.inj h
    subst hl
    have hi2 : i < rest.length := by
      rw [List.length_cons, rtPairs_length] at hi
      exact Nat.lt_of_succ_lt_succ hi
    have e1 : ((r0, (⟨r0.ygc_freq, r0.ygc_time, r0.fgc_freq, r0.fgc_time⟩ : RtFields)) ::
        rtPairs r0 rest).getD (i + 1) (zeroRow, zeroRt) =
        (rtPairs r0 rest).getD i (zeroRow, zeroRt) := rfl
    have e2 : (((r0, (⟨r0.ygc_freq, r0.ygc_time, r0.fgc_freq, r0.fgc_time⟩ : RtFields)) ::
        rtPairs r0 rest).getD i (zeroRow, zeroRt)).1 =
        (if i = 0 then r0 else rest.getD (i - 1) zeroRow) := by
      cases i with
      | zero => rfl
      | succ j =>
        have hj : j < rest.length := Nat.lt_of_succ_lt hi2
        have e3 : ((r0, (⟨r0.ygc_freq, r0.ygc_time, r0.fgc_freq, r0.fgc_time⟩ : RtFields)) ::
            rtPairs r0 rest).getD (j + 1) (zeroRow, zeroRt) =
            (rtPairs r0 rest).getD j (zeroRow, zeroRt) := rfl
        rw [e3, rtPairs_getD rest r0 j hj]
        simp
    rw [e1, rtPairs_getD rest r0 i hi2, e2]
    exact rtForRow_guards _ _

/-- C3 witness: two rows with equal timestamps — the guards fire and every
real-time field of row 1 is 0. -/
theorem c3_witness :
    (([(wRowA, zeroRt), (wRowA, zeroRt)].getD 1 (zeroRow, zeroRt)).1.timestamp -
        (([(wRowA, zeroRt), (wRowA, zeroRt)].getD 0 (zeroRow, zeroRt)).1.timestamp) ≤ 0 →
      ([(wRowA, zeroRt), (wRowA, zeroRt)].getD 1 (zeroRow, zeroRt)).2.rt_ygc_freq = 0 ∧
      ([(wRowA, zeroRt), (wRowA, zeroRt)].getD 1 (zeroRow, zeroRt)).2.rt_fgc_freq = 0 ∧
      ([(wRowA, zeroRt), (wRowA, zeroRt)].getD 1 (zeroRow, zeroRt)).2.rt_ygc_time = 0 ∧
      ([(wRowA, zeroRt), (wRowA, zeroRt)].getD 1 (zeroRow, zeroRt)).2.rt_fgc_time = 0) ∧
    (([(wRowA, zeroRt), (wRowA, zeroRt)].getD 1 (zeroRow, zeroRt)).1.raw_ygc -
        ([(wRowA, zeroRt), (wRowA, zeroRt)].getD 0 (zeroRow, zeroRt)).1.raw_ygc ≤ 0 →
      ([(wRowA, zeroRt), (wRowA, zeroRt)].getD 1 (zeroRow, zeroRt)).2.rt_ygc_time = 0) ∧
    (([(wRowA, zeroRt), (wRowA, zeroRt)].getD 1 (zeroRow, zeroRt)).1.raw_fgc -
        ([(wRowA, zeroRt), (wRowA, zeroRt)].getD 0 (zeroRow, zeroRt)).1.raw_fgc ≤ 0 →
      ([(wRowA, zeroRt), (wRowA, zeroRt)].getD 1 (zeroRow, zeroRt)).2.rt_fgc_time = 0) :=
  c3_division_guards [wRowA, wRowA] [(wRowA, zeroRt), (wRowA, zeroRt)] (by decide) 0 (by decide)

/-- The loop body produces only nonnegative values when the raw counters did
not decrease from `prev` to `cur`. -/
theorem rtForRow_nonneg (prev cur : Row) (h : rawMono prev cur) :
    0 ≤ (rtForRow prev cur).rt_ygc_freq ∧ 0 ≤ (rtForRow prev cur).rt_ygc_time ∧
    0 ≤ (rtForRow prev cur).rt_fgc_freq ∧ 0 ≤ (rtForRow prev cur).rt_fgc_time := by
  obtain ⟨h1, h2, h3, h4⟩ := h
  unfold rtForRow
  by_cases htd : cur.timestamp - prev.timestamp > 0
  · rw [if_pos htd]
    refine ⟨?_, ?_, ?_, ?_⟩ <;> dsimp only
    · split
      · next hm =>
        simp only [qDiv_eq, qSub_eq] at hm ⊢
        exact div_nonneg (sub_nonneg.mpr h1) (le_of_lt hm)
      · exact le_refl 0
    · split
      · next hd =>
        simp only [qDiv_eq, qMul_eq, qSub_eq] at hd ⊢
        exact div_nonneg (mul_nonneg (sub_nonneg.mpr h2) (by norm_num)) (le_of_lt hd)
      · exact le_refl 0
    · split
      · next hm =>
        simp only [qDiv_eq, qSub_eq] at hm ⊢
        exact div_nonneg (sub_nonneg.mpr h3) (le_of_lt hm)
      · exact le_refl 0
    · split
      · next hd =>
        simp only [qDiv_eq, qMul_eq, qSub_eq] at hd ⊢
        exact div_nonneg (mul_nonneg (sub_nonneg.mpr h4) (by norm_num)) (le_of_lt hd)
      · exact le_refl 0
  · rw [if_neg htd]
    exact ⟨le_refl 0, le_refl 0, le_refl 0, le_refl 0⟩

/-- All delta rows are nonnegative under a chain of monotone raw counters. -/
theorem rtPairs_nonneg (t : List Row) : ∀ p : Row, List.Chain' rawMono (p :: t) →
    ∀ q ∈ rtPairs p t, 0 ≤ q.2.rt_ygc_freq ∧ 0 ≤ q.2.rt_ygc_time ∧
      0 ≤ q.2.rt_fgc_freq ∧ 0 ≤ q.2.rt_fgc_time := by
  induction t with
  | nil => intro p _ q hq; cases hq
  | cons x s ih =>
    intro p hch q hq
    have h1 : rawMono p x := (List.chain'_cons.mp hch).1
    have h2 : List.Chain' rawMono (x :: s) := (List.chain'_cons.mp hch).2
    rcases List.mem_cons.mp hq with he | ht
    · subst he
      exact rtForRow_nonneg p x h1
    · exact ih x h2 q ht

/-- C10: if the raw GC counters are non-decreasing along the
timestamp-sorted order, every real-time field of every row `i > 0` of
`calculate_realtime_gc`'s output is nonnegative. -/
theorem c10_rt_nonneg (rows : List Row) (l : List (Row × RtFields))
    (h : calculate_realtime_gc rows = .ok l)
    (hmono : List.Chain' rawMono (sortRows rows)) :
    ∀ q ∈ l.tail, 0 ≤ q.2.rt_ygc_freq ∧ 0 ≤ q.2.rt_ygc_time ∧
      0 ≤ q.2.rt_fgc_freq ∧ 0 ≤ q.2.rt_fgc_time := by
  unfold calculate_realtime_gc at h
  rcases hs : sortRows rows with _ | ⟨r0, rest⟩
  · simp only [hs] at h
    exact Except.noConfusion h
  · simp only [hs] at h
    have hl := Except.ok.inj h
    subst hl
    rw [hs] at hmono
    intro q hq
    exact rtPairs_nonneg rest r0 hmono q hq

/-- C10 witness: row 1 of a concrete monotone two-row table has nonnegative
real-time fields. -/
theorem c10_witness :
    0 ≤ zeroRt.rt_ygc_freq ∧ 0 ≤ zeroRt.rt_ygc_time ∧
    0 ≤ zeroRt.rt_fgc_freq ∧ 0 ≤ zeroRt.rt_fgc_time :=
  c10_rt_nonneg [wRowA, wRowB] [(wRowA, zeroRt), (wRowB, zeroRt)] (by decide) (by
    have hs : sortRows [wRowA, wRowB] = [wRowA, wRowB] := by decide
    rw [hs]
    exact List.chain'_cons.mpr ⟨by decide, List.chain'_singleton wRowB⟩)
    (wRowB, zeroRt) (by decide)

/-- C6: over the full non-resampled table, `analyze_data` computes
`duration` as the greatest minus the least timestamp, `hours` as
`duration / 3600`, `memory_growth` as the greatest minus the least memory
value, and `hourly_growth` as `memory_growth / hours` when `hours > 0` and
exactly 0 otherwise (so never undefined, including zero duration). -/
theorem c6_summary_formulas (rows : List Row) (h : rows ≠ []) :
    ∃ res, analyze_data rows = .ok res ∧
      res.duration = tsMaxL rows - tsMinL rows ∧
      (∀ x ∈ rows, x.timestamp ≤ tsMaxL rows) ∧
      (∃ x ∈ rows, tsMaxL rows = x.timestamp) ∧
      (∀ x ∈ rows, tsMinL rows ≤ x.timestamp) ∧
      (∃ x ∈ rows, tsMinL rows = x.timestamp) ∧
      res.hours = (res.duration : ℚ) / 3600 ∧
      res.memory_growth = memMaxL rows - memMinL rows ∧
      (∀ x ∈ rows, x.memory ≤ memMaxL rows) ∧
      (∃ x ∈ rows, memMaxL rows = x.memory) ∧
      (∀ x ∈ rows, memMinL rows ≤ x.memory) ∧
      (∃ x ∈ rows, memMinL rows = x.memory) ∧
      (0 < res.hours → res.hourly_growth = res.memory_growth / res.hours) ∧
      (res.hours ≤ 0 → res.hourly_growth = 0) := by
  rcases rows with _ | ⟨r, rs⟩
  · exact absurd rfl h
  · refine ⟨_, rfl, rfl, (foldMax_spec Row.timestamp r rs).1,
      (foldMax_spec Row.timestamp r rs).2, (foldMin_spec Row.timestamp r rs).1,
      (foldMin_spec Row.timestamp r rs).2, ?_, ?_, (foldMax_spec Row.memory r rs).1,
      (foldMax_spec Row.memory r rs).2, (foldMin_spec Row.memory r rs).1,
      (foldMin_spec Row.memory r rs).2, ?_, ?_⟩
    · dsimp only
      exact qDiv_eq _ _
    · dsimp only
      exact qSub_eq _ _
    · intro hpos
      dsimp only at hpos ⊢
      rw [if_pos hpos]
      exact qDiv_eq _ _
    · intro hle
      dsimp only at hle ⊢
      exact if_neg (not_lt.mpr hle)

/-- C6 witness: a two-row table spanning one hour with 10 MB growth. -/
theorem c6_witness :
    ∃ res, analyze_data [wRowA, wRowC] = .ok res ∧
      res.duration = tsMaxL [wRowA, wRowC] - tsMinL [wRowA, wRowC] ∧
      (∀ x ∈ [wRowA, wRowC], x.timestamp ≤ tsMaxL [wRowA, wRowC]) ∧
      (∃ x ∈ [wRowA, wRowC], tsMaxL [wRowA, wRowC] = x.timestamp) ∧
      (∀ x ∈ [wRowA, wRowC], tsMinL [wRowA, wRowC] ≤ x.timestamp) ∧
      (∃ x ∈ [wRowA, wRowC], tsMinL [wRowA, wRowC] = x.timestamp) ∧
      res.hours = (res.duration : ℚ) / 3600 ∧
      res.memory_growth = memMaxL [wRowA, wRowC] - memMinL [wRowA, wRowC] ∧
      (∀ x ∈ [wRowA, wRowC], x.memory ≤ memMaxL [wRowA, wRowC]) ∧
      (∃ x ∈ [wRowA, wRowC], memMaxL [wRowA, wRowC] = x.memory) ∧
      (∀ x ∈ [wRowA, wRowC], memMinL [wRowA, wRowC] ≤ x.memory) ∧
      (∃ x ∈ [wRowA, wRowC], memMinL [wRowA, wRowC] = x.memory) ∧
      (0 < res.hours → res.hourly_growth = res.memory_growth / res.hours) ∧
      (res.hours ≤ 0 → res.hourly_growth = 0) :=
  c6_summary_formulas [wRowA, wRowC] (by decide)

/-! ### Resampling a minute-aligned, gap-free table -/

theorem minuteOf_mul (k : ℤ) : minuteOf (60 * k) = k := by
  rw [minuteOf]
  exact Int.mul_fdiv_cancel_left k (by norm_num)

theorem tsfold_min (t : List Row) : ∀ (q a : ℤ), a ≤ 60 * q →
    (∀ j, j < t.length → (t.getD j zeroRow).timestamp = 60 * (q + (j : ℤ))) →
    foldMin Row.timestamp a t = a := by
  induction t with
  | nil => intro q a _ _; rfl
  | cons x s ih =>
    intro q a ha H
    have hx : x.timestamp = 60 * q := by
      have := H 0 (Nat.succ_pos s.length)
      simpa using this
    have h1 : foldMin Row.timestamp a (x :: s) =
        foldMin Row.timestamp (min a x.timestamp) s := rfl
    have hs : ∀ j, j < s.length →
        (s.getD j zeroRow).timestamp = 60 * ((q + 1) + (j : ℤ)) := by
      intro j hj
      have h2 := H (j + 1) (Nat.succ_lt_succ hj)
      have h3 : ((x :: s).getD (j + 1) zeroRow) = s.getD j zeroRow := rfl
      rw [h3] at h2
      rw [h2]
      push_cast
      ring
    rw [h1, min_eq_left (by rw [hx]; exact ha)]
    exact ih (q + 1) a (by omega) hs

theorem tsfold_max (t : List Row) : ∀ (q a : ℤ), a ≤ 60 * q →
    (∀ j, j < t.length → (t.getD j zeroRow).timestamp = 60 * (q + (j : ℤ))) →
    foldMax Row.timestamp a t =
      (if t.length = 0 then a else 60 * (q + (t.length : ℤ) - 1)) := by
  induction t with
  | nil => intro q a _ _; rfl
  | cons x s ih =>
    intro q a ha H
    have hx : x.timestamp = 60 * q := by
      have := H 0 (Nat.succ_pos s.length)
      simpa using this
    have h1 : foldMax Row.timestamp a (x :: s) =
        foldMax Row.timestamp (max a x.timestamp) s := rfl
    have hs : ∀ j, j < s.length →
        (s.getD j zeroRow).timestamp = 60 * ((q + 1) + (j : ℤ)) := by
      intro j hj
      have h2 := H (j + 1) (Nat.succ_lt_succ hj)
      have h3 : ((x :: s).getD (j + 1) zeroRow) = s.getD j zeroRow := rfl
      rw [h3] at h2
      rw [h2]
      push_cast
      ring
    rw [h1, max_eq_right (by rw [hx]; exact ha)]
    rw [ih (q + 1) x.timestamp (by rw [hx]; omega) hs]
    by_cases hl : s.length = 0
    · rw [if_pos hl, if_neg (by simp [hl])]
      rw [hx, List.length_cons, hl]
      norm_num
    · rw [if_neg hl, if_neg (by simp)]
      rw [List.length_cons]
      push_cast
      ring

theorem bucket_above_empty (l : List Row) : ∀ (q : ℤ),
    (∀ i, i < l.length → (l.getD i zeroRow).timestamp = 60 * (q + (i : ℤ))) →
    ∀ m : ℤ, m < q → bucketRows m l = [] := by
  induction l with
  | nil => intro q _ m _; rfl
  | cons x t ih =>
    intro q H m hm
    have hx : minuteOf x.timestamp = q := by
      have h0 := H 0 (Nat.succ_pos t.length)
      have h1 : ((x :: t).getD 0 zeroRow) = x := rfl
      rw [h1] at h0
      simp only [Nat.cast_zero, add_zero] at h0
      rw [h0]
      exact minuteOf_mul q
    have ht : ∀ i, i < t.length → (t.getD i zeroRow).timestamp = 60 * ((q + 1) + (i : ℤ)) := by
      intro j hj
      have h2 := H (j + 1) (Nat.succ_lt_succ hj)
      have h3 : ((x :: t).getD (j + 1) zeroRow) = t.getD j zeroRow := rfl
      rw [h3] at h2
      rw [h2]
      push_cast
      ring
    unfold bucketRows
    rw [List.filter_cons, if_neg (by simp [hx]; omega)]
    exact ih (q + 1) ht m (by omega)

theorem bucket_single (l : List Row) : ∀ (q : ℤ),
    (∀ i, i < l.length → (l.getD i zeroRow).timestamp = 60 * (q + (i : ℤ))) →
    ∀ i, i < l.length → bucketRows (q + (i : ℤ)) l = [l.getD i zeroRow] := by
  induction l with
  | nil => intro q _ i hi; cases hi
  | cons x t ih =>
    intro q H i hi
    have hx : minuteOf x.timestamp = q := by
      have h0 := H 0 (Nat.succ_pos t.length)
      have h1 : ((x :: t).getD 0 zeroRow) = x := rfl
      rw [h1] at h0
      simp only [Nat.cast_zero, add_zero] at h0
      rw [h0]
      exact minuteOf_mul q
    have ht : ∀ j, j < t.length → (t.getD j zeroRow).timestamp = 60 * ((q + 1) + (j : ℤ)) := by
      intro j hj
      have h2 := H (j + 1) (Nat.succ_lt_succ hj)
      have h3 : ((x :: t).getD (j + 1) zeroRow) = t.getD j zeroRow := rfl
      rw [h3] at h2
      rw [h2]
      push_cast
      ring
    cases i with
    | zero =>
      unfold bucketRows
      rw [List.filter_cons, if_pos (by simp [hx])]
      have hrest : bucketRows (q + ((0 : ℕ) : ℤ)) t = [] :=
        bucket_above_empty t (q + 1) ht _ (by simp)
      unfold bucketRows at hrest
      rw [hrest]
      rfl
    | succ j =>
      have hj : j < t.length := Nat.lt_of_succ_lt_succ hi
      unfold bucketRows
      rw [List.filter_cons, if_neg (by simp [hx]; omega)]
      have h4 := ih (q + 1) ht j hj
      unfold bucketRows at h4
      have h5 : q + ((j + 1 : ℕ) : ℤ) = (q + 1) + (j : ℤ) := by push_cast; ring
      rw [h5, h4]
      rfl

theorem meanRow_single (m : ℤ) (x : Row) (hts : x.timestamp = 60 * m) :
    meanRow m [x] = x := by
  have hc : ∀ g : Row → ℚ, colMean g [x] = g x := by
    intro g
    show qDiv (qSum (List.map g [x])) (((1 : ℕ) : ℚ)) = g x
    rw [List.map_singleton]
    show qDiv (qAdd (g x) (qSum [])) _ = g x
    rw [show qSum [] = 0 from rfl, qAdd_eq, add_zero, qDiv_eq]
    norm_num
  unfold meanRow
  simp only [hc, ← hts]

/-- `ffillCells` on a list of filled cells just extracts the rows. -/
theorem ffill_map_some (f : ℕ → Row) (g : ℕ → ℤ) (idx : List ℕ) :
    ∀ carry : Option Row,
    ffillCells carry (idx.map (fun i => (g i, some (f i)))) = idx.map f := by
  induction idx with
  | nil => intro carry; cases carry <;> rfl
  | cons i t ih =>
    intro carry
    cases carry with
    | none =>
      show f i :: ffillCells (some (f i)) (t.map (fun i => (g i, some (f i)))) = f i :: t.map f
      rw [ih (some (f i))]
    | some c =>
      show f i :: ffillCells (some (f i)) (t.map (fun i => (g i, some (f i)))) = f i :: t.map f
      rw [ih (some (f i))]

theorem map_getD_range (l : List Row) :
    (List.range l.length).map (fun i => l.getD i zeroRow) = l := by
  induction l with
  | nil => rfl
  | cons x t ih =>
    rw [List.length_cons, List.range_succ_eq_map, List.map_cons, List.map_map]
    have h1 : ((fun i => (x :: t).getD i zeroRow) ∘ Nat.succ) =
        fun i => t.getD i zeroRow := funext fun i => rfl
    rw [h1, ih]
    rfl

/-- C4: resampling is the identity on a non-empty table whose timestamps are
exactly minute-aligned and advance by exactly one minute per row (hence
distinct and gap-free): every bucket holds exactly one row, whose mean is
itself, and no forward-filling occurs.  In the exact ℚ model the equality is
literal, not merely up to floating-point averaging. -/
theorem c4_resample_idempotent (rows : List Row) (q : ℤ) (h : rows ≠ [])
    (H : ∀ i, i < rows.length →
      (rows.getD i zeroRow).timestamp = 60 * (q + (i : ℤ))) :
    resample_data_by_minute rows = rows := by
  rcases rows with _ | ⟨r, rs⟩
  · exact absurd rfl h
  · have hr0 : r.timestamp = 60 * q := by
      have h0 := H 0 (Nat.succ_pos rs.length)
      simpa using h0
    have hmin : tsMinL (r :: rs) = 60 * q := by
      show foldMin Row.timestamp r.timestamp rs = 60 * q
      rw [tsfold_min rs (q + 1) r.timestamp (by rw [hr0]; omega) ?hs, hr0]
      case hs =>
        intro j hj
        have h2 := H (j + 1) (Nat.succ_lt_succ hj)
        have h3 : ((r :: rs).getD (j + 1) zeroRow) = rs.getD j zeroRow := rfl
        rw [h3] at h2
        rw [h2]
        push_cast
        ring
    have hmax : tsMaxL (r :: rs) = 60 * (q + (rs.length : ℤ)) := by
      show foldMax Row.timestamp r.timestamp rs = 60 * (q + (rs.length : ℤ))
      rw [tsfold_max rs (q + 1) r.timestamp (by rw [hr0]; omega) ?hs2]
      case hs2 =>
        intro j hj
        have h2 := H (j + 1) (Nat.succ_lt_succ hj)
        have h3 : ((r :: rs).getD (j + 1) zeroRow) = rs.getD j zeroRow := rfl
        rw [h3] at h2
        rw [h2]
        push_cast
        ring
      by_cases hl : rs.length = 0
      · rw [if_pos hl, hr0, hl]
        norm_num
      · rw [if_neg hl]
        ring
    have hn : (q + (rs.length : ℤ) - q + 1).toNat = rs.length + 1 := by omega
    have hcell : ∀ i ∈ List.range (rs.length + 1),
        ((fun m => (m, resampleCell (r :: rs) m)) ∘ (fun i : ℕ => q + (i : ℤ))) i =
          (q + (i : ℤ), some ((r :: rs).getD i zeroRow)) := by
      intro i hi
      have hi2 : i < (r :: rs).length := by
        rw [List.length_cons]
        exact List.mem_range.mp hi
      have hb := bucket_single (r :: rs) q H i hi2
      show (q + (i : ℤ), resampleCell (r :: rs) (q + (i : ℤ))) =
        (q + (i : ℤ), some ((r :: rs).getD i zeroRow))
      have hcell2 : resampleCell (r :: rs) (q + (i : ℤ)) =
          some ((r :: rs).getD i zeroRow) := by
        unfold resampleCell
        rw [hb]
        show (if ([(r :: rs).getD i zeroRow] : List Row).isEmpty = true then none
            else some (meanRow (q + (i : ℤ)) [(r :: rs).getD i zeroRow])) =
          some ((r :: rs).getD i zeroRow)
        rw [if_neg (by simp)]
        rw [meanRow_single (q + (i : ℤ)) ((r :: rs).getD i zeroRow) (H i hi2)]
      rw [hcell2]
    simp only [resample_data_by_minute]
    rw [hmin, hmax, minuteOf_mul, minuteOf_mul, hn, List.map_map]
    rw [List.map_congr_left hcell]
    have hlen : rs.length + 1 = (r :: rs).length := rfl
    rw [hlen, ffill_map_some (fun i => (r :: rs).getD i zeroRow) (fun i => q + (i : ℤ))
      (List.range (r :: rs).length) none, map_getD_range]

/-- C4 witness: a concrete two-row minute-aligned table is a fixed point. -/
theorem c4_witness : resample_data_by_minute [wRowA, wRowB] = [wRowA, wRowB] :=
  c4_resample_idempotent [wRowA, wRowB] 100 (by decide) (by
    intro i hi
    simp only [List.length_cons, List.length_nil] at hi
    interval_cases i <;> decide)

end UsageLog
